import Mathlib

/-!
Verification of `pytorch/evaluate.py` (dcase2019_task4): the evaluation
pipeline (`Evaluator.evaluate`), the visualization event gate
(`Evaluator.visualize`), and the statistics log (`StatisticsContainer`),
together with the activity detector modelled from the specification
(the function `activity_detection` is referenced by the source but not
defined in it).

Python dictionaries holding statistics records are embedded as ordered
association lists (`Stats`); Python object identity is embedded with an
explicit heap mapping addresses to records; the filesystem is a map from
paths to the last pickled value (pickle round-trips by construction).
-/

/-- Errors a Python execution of this module can raise that are relevant
here: `NameError` (an unbound name such as `average_precision` or
`activity_detection`) and `KeyError` (unguarded dict access, never
actually raised by the embedded code paths). -/
inductive PyError where
  | nameError
  | keyError
deriving DecidableEq

/-- The four class-wise-averaged numbers extracted from one sed_eval
metric engine (`results_class_wise_average_metrics`), lines 116-124 and
130-138 of evaluate.py. -/
structure MetricsR where
  f_measure : ℚ
  error_rate : ℚ
  deletion_rate : ℚ
  insertion_rate : ℚ
deriving DecidableEq

/-- Values stored in a statistics record: the `iteration` integer, the
per-class `average_precision` array, or a nested metrics sub-record. -/
inductive Val where
  | int (n : Int)
  | rats (l : List ℚ)
  | metrics (m : MetricsR)
deriving DecidableEq

/-- A Python dict used as a statistics record: an insertion-ordered
association list from string keys to values. -/
abbrev Stats := List (String × Val)

/-- Python dict assignment `d[k] = v`: overwrite the value at an existing
key in place, else append a new entry. -/
def Stats.set (d : Stats) (k : String) (v : Val) : Stats :=
  if d.any (fun kv => kv.1 = k) then
    d.map (fun kv => if kv.1 = k then (k, v) else kv)
  else d ++ [(k, v)]

/-- Python dict read `d[k]` as a partial lookup. -/
def Stats.get (d : Stats) (k : String) : Option Val :=
  (d.find? (fun kv => kv.1 = k)).map Prod.snd

/-- Addresses of Python objects (dict identity). -/
abbrev Addr := Nat

/-- The Python heap restricted to statistics records: every address holds
a record value. -/
abbrev Heap := Addr → Stats

/-- The filesystem as seen through `cPickle.dump` / `cPickle.load`: each
path holds the last list of records dumped to it, if any. -/
abbrev FS := String → Option (List Stats)

/-- Pointwise function update, used for heap writes and file writes. -/
def updateFn {α β : Type} [DecidableEq α] (f : α → β) (x : α) (v : β) : α → β :=
  fun y => if y = x then v else f y

/-- A sound event as parsed by `read_csv_file_for_sed_eval_tool`
(external collaborator): class label plus onset/offset in seconds. -/
structure Event where
  label : String
  onset : ℚ
  offset : ℚ
deriving DecidableEq

/-- Python `str.rfind` for a single character over the characters of a
string: the index of the last occurrence, or -1 if absent. -/
def rfindChar (c : Char) (l : List Char) : Int :=
  (List.range l.length).foldl
    (fun acc i => if l.get? i = some c then (i : Int) else acc) (-1)

/-- Python os.path.splitext: split `p` at the last dot, provided that dot lies
after the last path separator and at least one character strictly between
the separator and the dot is not itself a dot (leading dots of the final
component never start an extension). -/
def splitext (p : String) : String × String :=
  let l := p.data
  let sepIndex := rfindChar '/' l
  let dotIndex := rfindChar '.' l
  if sepIndex < dotIndex ∧
      (List.range l.length).any (fun i =>
        decide (sepIndex < (i : Int)) && decide ((i : Int) < dotIndex) &&
          !(l.get? i = some '.' : Bool)) then
    (String.mk (l.take dotIndex.toNat), String.mk (l.drop dotIndex.toNat))
  else (p, "")

/-- Maximal runs of `true` in a boolean mask, as half-open index
intervals; `i` is the index of the head of the remaining mask and `s` the
start of the currently open run, if any. -/
def runsAux : List Bool → Nat → Option Nat → List (Nat × Nat)
  | [], _, none => []
  | [], i, some s => [(s, i)]
  | b :: bs, i, none =>
    if b then runsAux bs (i + 1) (some i) else runsAux bs (i + 1) none
  | b :: bs, i, some s =>
    if b then runsAux bs (i + 1) (some s)
    else (s, i) :: runsAux bs (i + 1) none

/-- Maximal `true`-runs of a mask as `[start, end)` intervals in
increasing order. -/
def runs (mask : List Bool) : List (Nat × Nat) :=
  runsAux mask 0 none

/-- Merge adjacent segments whose silent gap is strictly shorter than
`smooth` frames; segments are assumed sorted and non-overlapping, and a
chain of small gaps collapses to one segment. -/
def mergeGaps (smooth : Nat) : List (Nat × Nat) → List (Nat × Nat)
  | [] => []
  | p :: rest =>
    match mergeGaps smooth rest with
    | [] => [p]
    | q :: qs => if q.1 - p.2 < smooth then (p.1, q.2) :: qs else p :: q :: qs

/-- Modelled from the spec: the function `activity_detection` is called by
`Evaluator.visualize` (evaluate.py lines 193-198) but is neither defined
in the repository sources nor imported; spec section 4.1 defines it as
dual-threshold hysteresis (a low-threshold activity mask whose maximal
runs are kept only when they contain a frame at or above the high
threshold), followed by gap smoothing (merge runs separated by a gap
strictly shorter than `smooth` frames) and salt removal (discard runs
shorter than `salt` frames), returning `[start, end)` frame intervals
sorted by start. -/
def activity_detection (x : List ℚ) (thres low_thres : ℚ)
    (n_smooth n_salt : Nat) : List (Nat × Nat) :=
  let mask := x.map (fun v => decide (low_thres ≤ v))
  let segs := (runs mask).filter
    (fun p => ((x.drop p.1).take (p.2 - p.1)).any (fun v => decide (thres ≤ v)))
  (mergeGaps n_smooth segs).filter (fun p => decide (n_salt ≤ p.2 - p.1))

/-- The fixed hyper-parameters built in `Evaluator.__init__`
(evaluate.py lines 39-44); `frames_per_second` comes from the external
`config` module. -/
structure SedParams where
  audio_tagging_threshold : ℚ
  sed_high_threshold : ℚ
  sed_low_threshold : ℚ
  n_smooth : Nat
  n_salt : Nat
deriving DecidableEq

/-- The dictionary `self.sed_params_dict` as assigned in `Evaluator.__init__`. -/
def sed_params_dict (frames_per_second : Nat) : SedParams :=
  { audio_tagging_threshold := 1/2
    sed_high_threshold := 9/10
    sed_low_threshold := 1/2
    n_smooth := frames_per_second / 4
    n_salt := frames_per_second / 4 }

/-- The global names bound in the module `pytorch/evaluate.py`: its
imports (lines 1-17) and its top-level definitions. -/
def moduleGlobals : List String :=
  ["os", "sys", "np", "time", "logging", "plt", "metrics", "datetime",
   "cPickle", "sed_eval", "get_filename", "read_csv_file_for_sed_eval_tool",
   "inverse_scale", "write_submission", "forward", "config",
   "Evaluator", "StatisticsContainer"]

/-- The per-class event extraction inside `Evaluator.visualize`
(evaluate.py lines 189-198): if the clipwise output for class `k`
strictly exceeds `sed_high_threshold`, the name `activity_detection` is
resolved and called on that class's framewise output (raising `NameError`
when the name is unbound in the module); otherwise no events are produced
for the class. -/
def visualizeClassEvents (params : SedParams) (clipwise_nk : ℚ)
    (framewise_nk : List ℚ) : Except PyError (List (Nat × Nat)) :=
  if params.sed_high_threshold < clipwise_nk then
    if moduleGlobals.contains "activity_detection" then
      Except.ok (activity_detection framewise_nk params.sed_high_threshold
        params.sed_low_threshold params.n_smooth params.n_salt)
    else Except.error PyError.nameError
  else Except.ok []

/-- The model-output mapping returned by the external `forward`
collaborator: `clipwise_output` and `audio_name` are always present,
while `weak_target` and `strong_target` may be absent (membership tests
`in output_dict` in the source). -/
structure OutputDict where
  audio_name : List String
  clipwise_output : List (List ℚ)
  weak_target : Option (List (List ℚ))
  strong_target : Option (List (List (List ℚ)))

/-- The external collaborators of `Evaluator.evaluate`: sklearn's
`average_precision_score`, the reference and prediction csv mappings
produced by `read_csv_file_for_sed_eval_tool`, and the two stateful
sed_eval metric engines with their `evaluate` mutation and their
`results_class_wise_average_metrics` extraction. -/
structure Externals (E S : Type) where
  apScore : List (List ℚ) → List (List ℚ) → List ℚ
  referenceDict : String → Option (List Event)
  predictDict : String → Option (List Event)
  eventEngine0 : E
  segmentEngine0 : S
  evalEvent : E → List Event → List Event → E
  evalSegment : S → List Event → List Event → S
  resultsEvent : E → MetricsR
  resultsSegment : S → MetricsR

/-- Guarded dict access of evaluate.py lines 103-111: the event list for
a clip identifier, defaulting to the empty list when the identifier is
absent from the mapping. -/
def lookupOrEmpty (d : String → Option (List Event)) (audio_name : String) :
    List Event :=
  match d audio_name with
  | some l => l
  | none => []

/-- The (reference, prediction) event-list pairs fed to both metric
engines by the loop of evaluate.py lines 102-114, one pair per entry of
`output_dict['audio_name']`. -/
def corpusPairs {E S : Type} (ext : Externals E S) (audio_names : List String) :
    List (List Event × List Event) :=
  audio_names.map (fun audio_name =>
    (lookupOrEmpty ext.referenceDict audio_name,
     lookupOrEmpty ext.predictDict audio_name))

/-- Method `Evaluator.evaluate` (evaluate.py lines 46-148). The local
`average_precision` is bound only inside the `'weak_target' in
output_dict` branch, yet line 80 reads it unconditionally, so when
`weak_target` is absent the call raises `NameError`; when `strong_target`
is absent the function body ends without a `return` statement, so Python
returns `None` (modelled as `Except.ok none`). -/
def evaluate {E S : Type} (ext : Externals E S) (output_dict : OutputDict) :
    Except PyError (Option Stats) :=
  match output_dict.weak_target with
  | none => Except.error PyError.nameError
  | some weak_target =>
    let average_precision := ext.apScore weak_target output_dict.clipwise_output
    let statistics : Stats :=
      Stats.set [] "average_precision" (Val.rats average_precision)
    if output_dict.strong_target.isSome then
      let pairs := corpusPairs ext output_dict.audio_name
      let engines := pairs.foldl
        (fun (es : E × S) p =>
          (ext.evalEvent es.1 p.1 p.2, ext.evalSegment es.2 p.1 p.2))
        (ext.eventEngine0, ext.segmentEngine0)
      let event_metrics := ext.resultsEvent engines.1
      let segment_metrics := ext.resultsSegment engines.2
      let statistics := Stats.set statistics "event_metrics"
        (Val.metrics event_metrics)
      let statistics := Stats.set statistics "segment_metrics"
        (Val.metrics segment_metrics)
      Except.ok (some statistics)
    else
      Except.ok none

/-- The attributes of a `StatisticsContainer` (evaluate.py lines 236-249):
the primary path, the backup path fixed at construction, and the
in-memory list of records held by reference. -/
structure ContainerState where
  statistics_path : String
  backup_statistics_path : String
  statistics_list : List Addr

/-- Method `StatisticsContainer.__init__` (evaluate.py lines 237-249); `now` is
the value of `datetime.datetime.now().strftime('%Y-%m-%d_%H-%M-%S')` at
construction time. -/
def StatisticsContainer_init (statistics_path : String) (now : String) :
    ContainerState :=
  { statistics_path := statistics_path
    backup_statistics_path :=
      (splitext statistics_path).1 ++ "_" ++ now ++ ".pickle"
    statistics_list := [] }

/-- Method `StatisticsContainer.append_and_dump` (evaluate.py lines 251-263):
set `statistics['iteration'] = iteration` on the caller's record (a heap
write at its address), append that same address to `statistics_list`,
then pickle the whole list to the primary path and then to the backup
path. -/
def append_and_dump (c : ContainerState) (heap : Heap) (fs : FS)
    (iteration : Int) (statistics : Addr) : ContainerState × Heap × FS :=
  let heap1 := updateFn heap statistics
    (Stats.set (heap statistics) "iteration" (Val.int iteration))
  let c1 := { c with statistics_list := c.statistics_list ++ [statistics] }
  let dumped := c1.statistics_list.map heap1
  let fs1 := updateFn fs c1.statistics_path (some dumped)
  let fs2 := updateFn fs1 c1.backup_statistics_path (some dumped)
  (c1, heap1, fs2)

/-- A sequence of `append_and_dump` calls on one container, threading the
container state, the heap and the filesystem. -/
def runCalls (calls : List (Int × Addr)) (s : ContainerState × Heap × FS) :
    ContainerState × Heap × FS :=
  calls.foldl (fun st c => append_and_dump st.1 st.2.1 st.2.2 c.1 c.2) s

/-- Concrete externals used to exercise the evaluation pipeline: trivial
engines and empty csv mappings. -/
def extTrivial : Externals Unit Unit :=
  { apScore := fun _ _ => []
    referenceDict := fun _ => none
    predictDict := fun _ => none
    eventEngine0 := ()
    segmentEngine0 := ()
    evalEvent := fun _ _ _ => ()
    evalSegment := fun _ _ _ => ()
    resultsEvent := fun _ => ⟨0, 0, 0, 0⟩
    resultsSegment := fun _ => ⟨0, 0, 0, 0⟩ }

/-- A concrete model-output mapping with weak targets but no strong
targets (a weakly-labelled evaluation split). -/
def outWeakOnly : OutputDict :=
  { audio_name := ["a.wav"]
    clipwise_output := [[1]]
    weak_target := some [[1]]
    strong_target := none }

/-- A concrete model-output mapping with both weak and strong targets. -/
def outBoth : OutputDict :=
  { audio_name := ["a.wav"]
    clipwise_output := [[1]]
    weak_target := some [[1]]
    strong_target := some [[[1]]] }

/-- A concrete model-output mapping lacking weak targets. -/
def outNoWeak : OutputDict :=
  { audio_name := ["a.wav"]
    clipwise_output := [[1]]
    weak_target := none
    strong_target := some [[[1]]] }

/-- A concrete heap whose every record is a one-key average_precision
record, matching the StatisticsLog round-trip scenario. -/
def heapAP : Heap :=
  fun _ => [("average_precision", Val.rats [4/5, 3/5])]

/-- The empty filesystem. -/
def fsEmpty : FS := fun _ => none

theorem find_set_mem (k : String) (v : Val) :
    ∀ d : Stats, d.any (fun kv => kv.1 = k) = true →
      (d.map (fun kv => if kv.1 = k then (k, v) else kv)).find?
        (fun kv => kv.1 = k) = some (k, v)
  | [], h => by simp at h
  | a :: t, h => by
    by_cases hak : a.1 = k
    · simp [List.find?_cons, hak]
    · have ht : t.any (fun kv => kv.1 = k) = true := by
        simpa [List.any_cons, hak] using h
      simpa [List.find?_cons, hak] using find_set_mem k v t ht

theorem find_set_new (k : String) (v : Val) :
    ∀ d : Stats, d.any (fun kv => kv.1 = k) = false →
      (d ++ [(k, v)]).find? (fun kv => kv.1 = k) = some (k, v)
  | [], _ => by simp [List.find?_cons]
  | a :: t, h => by
    have h2 := h
    simp only [List.any_cons, Bool.or_eq_false_iff] at h2
    have hak : ¬ (a.1 = k) := by
      simpa [decide_eq_false_iff_not] using h2.1
    simpa [List.find?_cons, hak] using find_set_new k v t h2.2

/-- Setting a key makes it readable: `d[k] = v` then `d[k] == v`. -/
theorem Stats.get_set_self (d : Stats) (k : String) (v : Val) :
    Stats.get (Stats.set d k v) k = some v := by
  cases hany : d.any (fun kv => kv.1 = k) with
  | true =>
    simp [Stats.set, Stats.get, hany, find_set_mem k v d hany]
  | false =>
    simp [Stats.set, Stats.get, hany, find_set_new k v d hany]

theorem find_set_other (k k2 : String) (v : Val) (hne : k2 ≠ k) :
    ∀ d : Stats,
      (d.map (fun kv => if kv.1 = k then (k, v) else kv)).find?
        (fun kv => kv.1 = k2) = d.find? (fun kv => kv.1 = k2)
  | [] => by simp
  | a :: t => by
    by_cases hak : a.1 = k
    · have ha2 : ¬ (a.1 = k2) := by
        rw [hak]; exact fun h => hne h.symm
      simp only [List.map_cons, if_pos hak, List.find?_cons]
      simp [Ne.symm hne, ha2, find_set_other k k2 v hne t]
    · simp only [List.map_cons, if_neg hak, List.find?_cons]
      by_cases ha2 : a.1 = k2
      · simp [ha2]
      · simp [ha2, find_set_other k k2 v hne t]

theorem find_append_other (k k2 : String) (v : Val) (hne : k2 ≠ k) :
    ∀ d : Stats,
      (d ++ [(k, v)]).find? (fun kv => kv.1 = k2) = d.find? (fun kv => kv.1 = k2)
  | [] => by simp [List.find?_cons, Ne.symm hne]
  | a :: t => by
    by_cases ha2 : a.1 = k2
    · simp [List.find?_cons, ha2]
    · simpa [List.find?_cons, ha2] using find_append_other k k2 v hne t

/-- Setting one key leaves every other key unchanged. -/
theorem Stats.get_set_other (d : Stats) (k k2 : String) (v : Val)
    (hne : k2 ≠ k) :
    Stats.get (Stats.set d k v) k2 = Stats.get d k2 := by
  cases hany : d.any (fun kv => kv.1 = k) with
  | true =>
    simp [Stats.set, Stats.get, hany, find_set_other k k2 v hne d]
  | false =>
    simp [Stats.set, Stats.get, hany, find_append_other k k2 v hne d]

theorem runsAux_replicate_true (n : Nat) :
    ∀ i s : Nat, runsAux (List.replicate n true) i (some s) = [(s, i + n)] := by
  induction n with
  | zero => intro i s; simp [runsAux]
  | succ m ih =>
    intro i s
    rw [List.replicate_succ]
    simp only [runsAux, if_pos rfl, ih (i + 1) s]
    simp [Nat.add_assoc, Nat.add_comm 1 m]

/-- The maximal `true`-runs of an all-`true` nonempty mask form the single
interval covering the whole mask. -/
theorem runs_replicate_true (n : Nat) (h : n ≠ 0) :
    runs (List.replicate n true) = [(0, n)] := by
  cases n with
  | zero => exact absurd rfl h
  | succ m =>
    rw [runs, List.replicate_succ]
    simp only [runsAux, if_pos rfl, runsAux_replicate_true m 1 0]
    simp [Nat.add_comm 1 m]

/-- When every score is at least the low threshold, the low-threshold
mask is all `true`. -/
theorem mask_all_true (scores : List ℚ) (low : ℚ)
    (h : ∀ x ∈ scores, low ≤ x) :
    scores.map (fun v => decide (low ≤ v)) =
      List.replicate scores.length true := by
  induction scores with
  | nil => simp
  | cons a t ih =>
    rw [List.map_cons, List.length_cons, List.replicate_succ]
    rw [decide_eq_true (h a (List.mem_cons_self a t))]
    rw [ih (fun x hx => h x (List.mem_cons_of_mem a hx))]

/-- C7 (amended): for every nonempty score sequence whose values are all
at or above `high_threshold`, with parameters satisfying the
preconditions and additionally `salt_window ≤ F`, the activity detector
returns exactly the single interval `[0, F)`. -/
theorem C7_all_high_single_interval (scores : List ℚ) (high low : ℚ)
    (smooth salt : Nat) (hlo : 0 ≤ low) (hlh : low ≤ high) (hhi : high ≤ 1)
    (hne : scores ≠ []) (hall : ∀ x ∈ scores, high ≤ x)
    (hsalt : salt ≤ scores.length) :
    activity_detection scores high low smooth salt = [(0, scores.length)] := by
  have hn : scores.length ≠ 0 := by
    simpa [List.length_eq_zero] using hne
  have hlow : ∀ x ∈ scores, low ≤ x :=
    fun x hx => le_trans hlh (hall x hx)
  unfold activity_detection
  rw [mask_all_true scores low hlow]
  dsimp only
  rw [runs_replicate_true scores.length hn]
  have hslice : (scores.drop 0).take (scores.length - 0) = scores := by
    simp
  have hanyhigh : scores.any (fun v => decide (high ≤ v)) = true := by
    cases scores with
    | nil => exact absurd rfl hne
    | cons a t =>
      simp only [List.any_cons, Bool.or_eq_true]
      exact Or.inl (decide_eq_true (hall a (List.mem_cons_self a t)))
  have hfilter :
      List.filter
        (fun p => ((scores.drop p.1).take (p.2 - p.1)).any
          (fun v => decide (high ≤ v))) [(0, scores.length)]
        = [(0, scores.length)] := by
    simp only [List.filter, hslice, hanyhigh]
  rw [hfilter]
  have hmerge : mergeGaps smooth [(0, scores.length)] = [(0, scores.length)] := by
    simp [mergeGaps]
  rw [hmerge]
  simp [List.filter, decide_eq_true hsalt]

/-- C7 witness: a concrete all-high sequence of length 2 with
`salt_window = 2` yields the single interval `[0, 2)`. -/
theorem C7_all_high_single_interval_witness :
    (0 : ℚ) ≤ 0 ∧ (0 : ℚ) ≤ 1 ∧ (1 : ℚ) ≤ 1 ∧
    ([(1 : ℚ), 1] ≠ []) ∧ (∀ x ∈ [(1 : ℚ), 1], (1 : ℚ) ≤ x) ∧
    2 ≤ [(1 : ℚ), 1].length ∧
    activity_detection [1, 1] 1 0 0 2 = [(0, [(1 : ℚ), 1].length)] :=
  ⟨by decide, by decide, by decide, by decide, by decide, by decide,
    C7_all_high_single_interval [1, 1] 1 0 0 2 (by decide) (by decide)
      (by decide) (by decide) (by decide) (by decide)⟩

/-- C7 counterexample: under the claim's preconditions alone the property
fails, because salt removal discards the full-length segment whenever
`salt_window` exceeds the sequence length: an all-high single frame with
`salt_window = 2` produces no interval at all. -/
theorem C7_salt_counterexample :
    (0 : ℚ) ≤ 0 ∧ (0 : ℚ) ≤ 1 ∧ (1 : ℚ) ≤ 1 ∧
    ([(1 : ℚ)] ≠ []) ∧ (∀ x ∈ [(1 : ℚ)], (1 : ℚ) ≤ x) ∧
    activity_detection [1] 1 0 0 2 = [] ∧
    activity_detection [1] 1 0 0 2 ≠ [(0, [(1 : ℚ)].length)] := by
  refine ⟨by decide, by decide, by decide, by decide, by decide, ?_, ?_⟩ <;>
    decide

theorem activity_detection_unbound :
    moduleGlobals.contains "activity_detection" = false := by
  decide

/-- C2 (amended): the clip-level gate in `Evaluator.visualize` compares
the clipwise score against `sed_high_threshold`, not
`audio_tagging_threshold`: when the score is not strictly greater than
`sed_high_threshold` no events are emitted for the class (and the
detector is never invoked); when it is strictly greater, the call to the
activity detector is attempted and fails with `NameError` because
`activity_detection` is unbound in the module. -/
theorem C2_gate_uses_sed_high_threshold (frames_per_second : Nat) (c : ℚ)
    (f : List ℚ) :
    visualizeClassEvents (sed_params_dict frames_per_second) c f =
      if (sed_params_dict frames_per_second).sed_high_threshold < c then
        Except.error PyError.nameError
      else Except.ok [] := by
  simp only [visualizeClassEvents, activity_detection_unbound]
  split <;> simp

/-- C2 counterexample: a clipwise score of 7/10 is at or above
`audio_tagging_threshold` (1/2), and the detector would return the
nonempty interval list `[(0, 3)]` on the all-active framewise scores, yet
`Evaluator.visualize` emits no events for the class — so the clip-level
gate does not compare against `audio_tagging_threshold`. -/
theorem C2_gate_counterexample :
    (sed_params_dict 4).audio_tagging_threshold ≤ (7/10 : ℚ) ∧
    activity_detection [1, 1, 1] (sed_params_dict 4).sed_high_threshold
      (sed_params_dict 4).sed_low_threshold (sed_params_dict 4).n_smooth
      (sed_params_dict 4).n_salt = [(0, 3)] ∧
    visualizeClassEvents (sed_params_dict 4) (7/10) [1, 1, 1] =
      Except.ok [] := by
  refine ⟨by norm_num [sed_params_dict], ?_, ?_⟩
  · norm_num [sed_params_dict, activity_detection, runs, runsAux, mergeGaps]
  · norm_num [visualizeClassEvents, sed_params_dict]

/-- C10: whenever a clipwise output strictly exceeds
`sed_high_threshold`, the per-class event extraction of
`Evaluator.visualize` raises `NameError`, because `activity_detection` is
neither defined in the module nor among its imports. -/
theorem C10_visualize_name_error (frames_per_second : Nat) (c : ℚ)
    (f : List ℚ)
    (h : (sed_params_dict frames_per_second).sed_high_threshold < c) :
    visualizeClassEvents (sed_params_dict frames_per_second) c f =
      Except.error PyError.nameError := by
  unfold visualizeClassEvents
  rw [if_pos h, activity_detection_unbound]
  simp

/-- C10 witness: a clipwise output of 1 exceeds the 9/10 threshold and
the extraction raises `NameError`. -/
theorem C10_visualize_name_error_witness :
    (sed_params_dict 4).sed_high_threshold < (1 : ℚ) ∧
    visualizeClassEvents (sed_params_dict 4) 1 [1, 1, 1] =
      Except.error PyError.nameError :=
  ⟨by norm_num [sed_params_dict],
    C10_visualize_name_error 4 1 [1, 1, 1] (by norm_num [sed_params_dict])⟩

/-- C1 (divergence witness for the code bug): when the model-output
mapping has weak targets but no strong targets, `Evaluator.evaluate`
builds the clip-level statistics record but falls off the end of the
function without returning it, so the call yields `None` rather than the
populated record the spec promises. -/
theorem C1_evaluate_returns_none_without_strong {E S : Type}
    (ext : Externals E S) (output_dict : OutputDict)
    (w : List (List ℚ)) (hw : output_dict.weak_target = some w)
    (hs : output_dict.strong_target = none) :
    evaluate ext output_dict = Except.ok none := by
  simp [evaluate, hw, hs]

/-- C1 witness: on a concrete weakly-labelled output mapping, evaluate
returns `ok none`. -/
theorem C1_evaluate_returns_none_without_strong_witness :
    outWeakOnly.weak_target = some [[1]] ∧
    outWeakOnly.strong_target = none ∧
    evaluate extTrivial outWeakOnly = Except.ok none :=
  ⟨rfl, rfl,
    C1_evaluate_returns_none_without_strong extTrivial outWeakOnly [[1]] rfl rfl⟩

/-- C9: when the model-output mapping lacks the key `weak_target`,
`Evaluator.evaluate` raises `NameError` while building the statistics
record, because line 80 reads the local `average_precision` that only the
guarded `weak_target` branch assigns; in particular it never returns a
record lacking `average_precision`. -/
theorem C9_missing_weak_target_name_error {E S : Type}
    (ext : Externals E S) (output_dict : OutputDict)
    (hw : output_dict.weak_target = none) :
    evaluate ext output_dict = Except.error PyError.nameError := by
  simp [evaluate, hw]

/-- C9 witness: a concrete output mapping without weak targets makes
evaluate raise `NameError`. -/
theorem C9_missing_weak_target_name_error_witness :
    outNoWeak.weak_target = none ∧
    evaluate extTrivial outNoWeak = Except.error PyError.nameError :=
  ⟨rfl, C9_missing_weak_target_name_error extTrivial outNoWeak rfl⟩

/-- C4: a clip identifier absent from the reference mapping (and likewise
from the prediction mapping) contributes an empty event list on the
missing side; the pair actually fed to the metric engines for that clip
appears among the corpus pairs, and the evaluation call still returns
without raising. -/
theorem C4_missing_clip_empty_events {E S : Type} (ext : Externals E S)
    (output_dict : OutputDict) (w : List (List ℚ))
    (hw : output_dict.weak_target = some w) (audio_name : String)
    (hmem : audio_name ∈ output_dict.audio_name)
    (href : ext.referenceDict audio_name = none) :
    (∀ d : String → Option (List Event), d audio_name = none →
      lookupOrEmpty d audio_name = []) ∧
    lookupOrEmpty ext.referenceDict audio_name = [] ∧
    (lookupOrEmpty ext.referenceDict audio_name,
      lookupOrEmpty ext.predictDict audio_name) ∈
        corpusPairs ext output_dict.audio_name ∧
    ∃ r, evaluate ext output_dict = Except.ok r := by
  refine ⟨fun d hd => by simp [lookupOrEmpty, hd], by simp [lookupOrEmpty, href],
    ?_, ?_⟩
  · exact List.mem_map.mpr ⟨audio_name, hmem, rfl⟩
  · by_cases hs : output_dict.strong_target.isSome
    · exact ⟨_, by simp [evaluate, hw, hs]; rfl⟩
    · exact ⟨none, by simp [evaluate, hw, hs]⟩

/-- C4 witness: the clip `a.wav` is absent from both csv mappings of the
trivial externals, yet evaluation proceeds and the pair fed for it is a
pair of empty lists. -/
theorem C4_missing_clip_empty_events_witness :
    outBoth.weak_target = some [[1]] ∧
    ("a.wav" ∈ outBoth.audio_name) ∧
    extTrivial.referenceDict "a.wav" = none ∧
    ((∀ d : String → Option (List Event), d "a.wav" = none →
      lookupOrEmpty d "a.wav" = []) ∧
    lookupOrEmpty extTrivial.referenceDict "a.wav" = [] ∧
    (lookupOrEmpty extTrivial.referenceDict "a.wav",
      lookupOrEmpty extTrivial.predictDict "a.wav") ∈
        corpusPairs extTrivial outBoth.audio_name ∧
    ∃ r, evaluate extTrivial outBoth = Except.ok r) :=
  ⟨rfl, by simp [outBoth], rfl,
    C4_missing_clip_empty_events extTrivial outBoth [[1]] rfl "a.wav"
      (by simp [outBoth]) rfl⟩

/-- C8: `append_and_dump` mutates the caller's record in place and
appends that very object: the heap cell at the record's address gains (or
overwrites) the `iteration` key while every other key keeps its value,
the address itself — not a copy — is appended to the in-memory sequence,
and no other heap cell changes. -/
theorem C8_append_and_dump_aliasing (c : ContainerState) (heap : Heap)
    (fs : FS) (iteration : Int) (statistics : Addr) :
    (append_and_dump c heap fs iteration statistics).2.1 statistics =
      Stats.set (heap statistics) "iteration" (Val.int iteration) ∧
    Stats.get ((append_and_dump c heap fs iteration statistics).2.1 statistics)
      "iteration" = some (Val.int iteration) ∧
    (∀ key : String, key ≠ "iteration" →
      Stats.get ((append_and_dump c heap fs iteration statistics).2.1 statistics)
        key = Stats.get (heap statistics) key) ∧
    (append_and_dump c heap fs iteration statistics).1.statistics_list =
      c.statistics_list ++ [statistics] ∧
    (∀ b : Addr, b ≠ statistics →
      (append_and_dump c heap fs iteration statistics).2.1 b = heap b) := by
  refine ⟨?_, ?_, ?_, ?_, ?_⟩
  · simp [append_and_dump, updateFn]
  · simp [append_and_dump, updateFn, Stats.get_set_self]
  · intro key hkey
    simp [append_and_dump, updateFn, Stats.get_set_other _ _ _ _ hkey]
  · simp [append_and_dump]
  · intro b hb
    simp [append_and_dump, updateFn, hb]

/-- C8 witness: a record that already carries `iteration == 3` and a key
`average_precision` is updated in place to `iteration == 7` with
`average_precision` untouched, and its own address is what is stored. -/
theorem C8_append_and_dump_aliasing_witness :
    (append_and_dump (StatisticsContainer_init "stat.pkl" "t")
        (fun _ => [("iteration", Val.int 3),
          ("average_precision", Val.rats [1])]) fsEmpty 7 0).2.1 0 =
      Stats.set [("iteration", Val.int 3), ("average_precision", Val.rats [1])]
        "iteration" (Val.int 7) ∧
    Stats.get ((append_and_dump (StatisticsContainer_init "stat.pkl" "t")
        (fun _ => [("iteration", Val.int 3),
          ("average_precision", Val.rats [1])]) fsEmpty 7 0).2.1 0)
      "iteration" = some (Val.int 7) ∧
    Stats.get ((append_and_dump (StatisticsContainer_init "stat.pkl" "t")
        (fun _ => [("iteration", Val.int 3),
          ("average_precision", Val.rats [1])]) fsEmpty 7 0).2.1 0)
      "average_precision" = some (Val.rats [1]) ∧
    (append_and_dump (StatisticsContainer_init "stat.pkl" "t")
        (fun _ => [("iteration", Val.int 3),
          ("average_precision", Val.rats [1])]) fsEmpty 7 0).1.statistics_list
      = [0] := by
  obtain ⟨h1, h2, h3, h4, h5⟩ := C8_append_and_dump_aliasing
    (StatisticsContainer_init "stat.pkl" "t")
    (fun _ => [("iteration", Val.int 3), ("average_precision", Val.rats [1])])
    fsEmpty 7 0
  refine ⟨h1, h2, ?_, ?_⟩
  · rw [h3 "average_precision" (by decide)]
    simp [Stats.get, List.find?_cons]
  · rw [h4]
    simp [StatisticsContainer_init]

/-- C3: starting from a freshly created statistics container, the single
call `append_and_dump(5, record)` with a record holding
`average_precision == [4/5, 3/5]` leaves, at the primary path, a pickled
one-element sequence whose only record has `iteration == 5` and the same
`average_precision`, and the backup path holds an identical sequence. -/
theorem C3_append_and_dump_roundtrip (path now : String) (heap : Heap)
    (fs : FS) (a : Addr)
    (hrec : heap a = [("average_precision", Val.rats [4/5, 3/5])]) :
    ∃ rec : Stats,
      (append_and_dump (StatisticsContainer_init path now) heap fs 5 a).2.2
        path = some [rec] ∧
      (append_and_dump (StatisticsContainer_init path now) heap fs 5 a).2.2
        ((StatisticsContainer_init path now).backup_statistics_path) =
          some [rec] ∧
      Stats.get rec "iteration" = some (Val.int 5) ∧
      Stats.get rec "average_precision" = some (Val.rats [4/5, 3/5]) := by
  refine ⟨Stats.set (heap a) "iteration" (Val.int 5), ?_, ?_, ?_, ?_⟩
  · by_cases hpb : path = (StatisticsContainer_init path now).backup_statistics_path
    · simp [append_and_dump, StatisticsContainer_init, updateFn, ← hpb]
    · simp [append_and_dump, StatisticsContainer_init, updateFn,
        if_neg hpb]
  · simp [append_and_dump, StatisticsContainer_init, updateFn]
  · exact Stats.get_set_self (heap a) "iteration" (Val.int 5)
  · rw [Stats.get_set_other (heap a) "iteration" "average_precision"
      (Val.int 5) (by decide), hrec]
    simp [Stats.get, List.find?_cons]

/-- C3 witness: the round trip at concrete path, timestamp, heap and
address. -/
theorem C3_append_and_dump_roundtrip_witness :
    heapAP 0 = [("average_precision", Val.rats [4/5, 3/5])] ∧
    ∃ rec : Stats,
      (append_and_dump (StatisticsContainer_init "stat.pkl" "t") heapAP
        fsEmpty 5 0).2.2 "stat.pkl" = some [rec] ∧
      (append_and_dump (StatisticsContainer_init "stat.pkl" "t") heapAP
        fsEmpty 5 0).2.2
        ((StatisticsContainer_init "stat.pkl" "t").backup_statistics_path) =
          some [rec] ∧
      Stats.get rec "iteration" = some (Val.int 5) ∧
      Stats.get rec "average_precision" = some (Val.rats [4/5, 3/5]) :=
  ⟨rfl, C3_append_and_dump_roundtrip "stat.pkl" "t" heapAP fsEmpty 0 rfl⟩

theorem runCalls_paths (calls : List (Int × Addr)) :
    ∀ s : ContainerState × Heap × FS,
      (runCalls calls s).1.statistics_path = s.1.statistics_path ∧
      (runCalls calls s).1.backup_statistics_path =
        s.1.backup_statistics_path := by
  induction calls with
  | nil => intro s; exact ⟨rfl, rfl⟩
  | cons hd tl ih =>
    intro s
    have step := ih (append_and_dump s.1 s.2.1 s.2.2 hd.1 hd.2)
    refine ⟨?_, ?_⟩
    · rw [runCalls, List.foldl_cons, show
        (List.foldl (fun st c => append_and_dump st.1 st.2.1 st.2.2 c.1 c.2)
          (append_and_dump s.1 s.2.1 s.2.2 hd.1 hd.2) tl) =
        runCalls tl (append_and_dump s.1 s.2.1 s.2.2 hd.1 hd.2) from rfl,
        step.1]
      simp [append_and_dump]
    · rw [runCalls, List.foldl_cons, show
        (List.foldl (fun st c => append_and_dump st.1 st.2.1 st.2.2 c.1 c.2)
          (append_and_dump s.1 s.2.1 s.2.2 hd.1 hd.2) tl) =
        runCalls tl (append_and_dump s.1 s.2.1 s.2.2 hd.1 hd.2) from rfl,
        step.2]
      simp [append_and_dump]

/-- C5 (amended): the backup path is computed exactly once at container
creation as the primary path's stem, an underscore, the creation
timestamp and the literal extension `.pickle` (not the primary path's own
extension); `append_and_dump` never re-derives either path, so every
write of one container instance targets the same backup file. -/
theorem C5_backup_path_fixed_at_creation (path now : String)
    (calls : List (Int × Addr)) (heap0 : Heap) (fs0 : FS) :
    (StatisticsContainer_init path now).backup_statistics_path =
      (splitext path).1 ++ "_" ++ now ++ ".pickle" ∧
    (runCalls calls
        (StatisticsContainer_init path now, heap0, fs0)).1.backup_statistics_path
      = (StatisticsContainer_init path now).backup_statistics_path ∧
    (runCalls calls
        (StatisticsContainer_init path now, heap0, fs0)).1.statistics_path
      = path :=
  ⟨rfl,
    (runCalls_paths calls (StatisticsContainer_init path now, heap0, fs0)).2,
    (runCalls_paths calls (StatisticsContainer_init path now, heap0, fs0)).1⟩

/-- C5 counterexample: with primary path `log.pkl` the backup path is
`log_<timestamp>.pickle`, which differs from the claim's
`<primary-stem>_<creation-timestamp>.<ext>` shape
`log_<timestamp>.pkl` built from the primary path's own extension. -/
theorem C5_backup_extension_counterexample :
    (StatisticsContainer_init "log.pkl"
        "2019-06-01_00-00-00").backup_statistics_path =
      "log_2019-06-01_00-00-00.pickle" ∧
    (StatisticsContainer_init "log.pkl"
        "2019-06-01_00-00-00").backup_statistics_path ≠
      (splitext "log.pkl").1 ++ "_" ++ "2019-06-01_00-00-00" ++
        (splitext "log.pkl").2 := by
  constructor
  · decide
  · decide

theorem runCalls_range_succ (iters : Nat → Int) (addrs : Nat → Addr)
    (k : Nat) (s : ContainerState × Heap × FS) :
    runCalls ((List.range (k + 1)).map fun j => (iters j, addrs j)) s =
      append_and_dump
        (runCalls ((List.range k).map fun j => (iters j, addrs j)) s).1
        (runCalls ((List.range k).map fun j => (iters j, addrs j)) s).2.1
        (runCalls ((List.range k).map fun j => (iters j, addrs j)) s).2.2
        (iters k) (addrs k) := by
  rw [List.range_succ, List.map_append]
  simp [runCalls, List.foldl_append]

/-- C6: after the k-th of a sequence of `append_and_dump` calls on one
container (with pairwise-distinct record objects), the in-memory sequence
holds exactly the first k records in call order, each record carries the
iteration value of its own call regardless of the numeric order of the
iteration arguments, and the entire k-record sequence — not a delta — is
what sits at both the primary and the backup path. -/
theorem C6_log_sequence_invariant (path now : String) (heap0 : Heap)
    (fs0 : FS) (iters : Nat → Int) (addrs : Nat → Addr)
    (hinj : Function.Injective addrs) (k : Nat) :
    (runCalls ((List.range k).map fun j => (iters j, addrs j))
        (StatisticsContainer_init path now, heap0, fs0)).1.statistics_list =
      (List.range k).map addrs ∧
    (∀ j, j < k →
      Stats.get ((runCalls ((List.range k).map fun j => (iters j, addrs j))
          (StatisticsContainer_init path now, heap0, fs0)).2.1 (addrs j))
        "iteration" = some (Val.int (iters j))) ∧
    (k ≠ 0 →
      (runCalls ((List.range k).map fun j => (iters j, addrs j))
          (StatisticsContainer_init path now, heap0, fs0)).2.2 path =
        some (((List.range k).map addrs).map
          ((runCalls ((List.range k).map fun j => (iters j, addrs j))
            (StatisticsContainer_init path now, heap0, fs0)).2.1)) ∧
      (runCalls ((List.range k).map fun j => (iters j, addrs j))
          (StatisticsContainer_init path now, heap0, fs0)).2.2
          ((StatisticsContainer_init path now).backup_statistics_path) =
        some (((List.range k).map addrs).map
          ((runCalls ((List.range k).map fun j => (iters j, addrs j))
            (StatisticsContainer_init path now, heap0, fs0)).2.1))) := by
  induction k with
  | zero =>
    exact ⟨by simp [runCalls, StatisticsContainer_init],
      fun j hj => absurd hj (Nat.not_lt_zero j), fun h => absurd rfl h⟩
  | succ k ih =>
    obtain ⟨ihList, ihIter, _⟩ := ih
    have hpaths := runCalls_paths
      ((List.range k).map fun j => (iters j, addrs j))
      (StatisticsContainer_init path now, heap0, fs0)
    have hprim : (runCalls ((List.range k).map fun j => (iters j, addrs j))
        (StatisticsContainer_init path now, heap0, fs0)).1.statistics_path =
      path := hpaths.1
    have hback : (runCalls ((List.range k).map fun j => (iters j, addrs j))
        (StatisticsContainer_init path now, heap0, fs0)).1.backup_statistics_path =
      (StatisticsContainer_init path now).backup_statistics_path := hpaths.2
    rw [runCalls_range_succ iters addrs k
      (StatisticsContainer_init path now, heap0, fs0)]
    have hlist : (runCalls ((List.range k).map fun j => (iters j, addrs j))
        (StatisticsContainer_init path now, heap0, fs0)).1.statistics_list
          ++ [addrs k] = List.map addrs (List.range (k + 1)) := by
      rw [ihList, List.range_succ, List.map_append, List.map_singleton]
    refine ⟨?_, ?_, ?_⟩
    · simp only [append_and_dump, ihList]
      rw [List.range_succ, List.map_append, List.map_singleton]
    · intro j hj
      rcases Nat.lt_succ_iff_lt_or_eq.mp hj with hj | hj
      · have hne : addrs j ≠ addrs k := fun h => Nat.ne_of_lt hj (hinj h)
        simpa [append_and_dump, updateFn, hne] using ihIter j hj
      · subst hj
        simp [append_and_dump, updateFn, Stats.get_set_self]
    · intro _
      constructor
      · simp only [append_and_dump, updateFn]
        rw [hprim, hback, hlist]
        by_cases hpb : path =
            (StatisticsContainer_init path now).backup_statistics_path
        · rw [if_pos hpb]
        · rw [if_neg hpb, if_pos rfl]
      · simp only [append_and_dump, updateFn]
        rw [hprim, hback, hlist, if_pos rfl]

/-- C6 witness: two calls with decreasing iteration numbers 5 then 4 on
distinct records 0 and 1 leave the list `[0, 1]` in call order, each
record carrying its own iteration, and the full two-record sequence at
both paths. -/
theorem C6_log_sequence_invariant_witness :
    Function.Injective (fun j : Nat => j) ∧
    ((runCalls ((List.range 2).map fun (j : Nat) => (5 - (j : Int), j))
        (StatisticsContainer_init "stat.pkl" "t", fun _ => [],
          fsEmpty)).1.statistics_list =
      (List.range 2).map (fun j : Nat => j) ∧
    (∀ j, j < 2 →
      Stats.get ((runCalls ((List.range 2).map fun (j : Nat) => (5 - (j : Int), j))
          (StatisticsContainer_init "stat.pkl" "t", fun _ => [],
            fsEmpty)).2.1 j) "iteration" = some (Val.int (5 - (j : Int)))) ∧
    (2 ≠ 0 →
      (runCalls ((List.range 2).map fun (j : Nat) => (5 - (j : Int), j))
          (StatisticsContainer_init "stat.pkl" "t", fun _ => [],
            fsEmpty)).2.2 "stat.pkl" =
        some (((List.range 2).map (fun j : Nat => j)).map
          ((runCalls ((List.range 2).map fun (j : Nat) => (5 - (j : Int), j))
            (StatisticsContainer_init "stat.pkl" "t", fun _ => [],
              fsEmpty)).2.1)) ∧
      (runCalls ((List.range 2).map fun (j : Nat) => (5 - (j : Int), j))
          (StatisticsContainer_init "stat.pkl" "t", fun _ => [],
            fsEmpty)).2.2
          ((StatisticsContainer_init "stat.pkl" "t").backup_statistics_path) =
        some (((List.range 2).map (fun j : Nat => j)).map
          ((runCalls ((List.range 2).map fun (j : Nat) => (5 - (j : Int), j))
            (StatisticsContainer_init "stat.pkl" "t", fun _ => [],
              fsEmpty)).2.1)))) :=
  ⟨fun a b h => h,
    C6_log_sequence_invariant "stat.pkl" "t" (fun _ => []) fsEmpty
      (fun j => 5 - (j : Int)) (fun j => j) (fun a b h => h) 2⟩
